import Mathlib

/-!
Verification of `arm_diagnostics.py` (faro-arm-visualizer).

Shallow embedding conventions:
  * Python strings are modelled as `List Char`; `pyStr` converts a Lean
    string literal.
  * Python floats (monotonic clock readings, smoothed periods) are
    modelled as `ℚ`.
  * Terminal output is modelled as the stream of characters written to
    stdout; a small terminal machine (`Term`) interprets `'\r'` as
    carriage return (cursor to column 0) and any other character as an
    overwriting write at the cursor.
  * Fallible Python operations (`float(v)` raising) are modelled with
    `Except PyErr`.
-/

set_option maxHeartbeats 1000000

/-- Convert a Lean string literal to the `List Char` model of a Python string. -/
def pyStr (s : String) : List Char := s.data

/-- Models `text.replace("\n", " ")` from `StatusDisplay.write` (single-character
pattern, hence a character map). -/
def normalizeText (t : List Char) : List Char :=
  t.map fun c => if c = '\n' then ' ' else c

/-- Lines 44-46 of `StatusDisplay.write`:
`max_len = max(20, width - 1); if len(text) > max_len: text = text[: max_len - 3] + "..."`. -/
def truncToWidth (t1 : List Char) (width : ℕ) : List Char :=
  let maxLen := max 20 (width - 1)
  if t1.length > maxLen then t1.take (maxLen - 3) ++ pyStr "..." else t1

/-- The mutable state of the Python `StatusDisplay` object
(`_last_text`, `_last_length`, `_active`, `_last_width`). -/
structure StatusDisplay where
  last_text : List Char
  last_length : ℕ
  active : Bool
  last_width : ℕ
deriving DecidableEq, Repr

/-- Models `StatusDisplay.__init__` (the terminal width measured at construction
is the `width` argument). -/
def initDisplay (width : ℕ) : StatusDisplay :=
  { last_text := [], last_length := 0, active := false, last_width := width }

/-- Models `StatusDisplay.write(text)`: here `width` is the terminal width measured by
`shutil.get_terminal_size` on this call.  Returns the new state and the
characters written to stdout.  `none` models Python `None` (no-op). -/
def StatusDisplay.write (s : StatusDisplay) (text : Option (List Char)) (width : ℕ) :
    StatusDisplay × List Char :=
  match text with
  | none => (s, [])
  | some t =>
    let t1 := normalizeText t
    let t2 := truncToWidth t1 width
    let out := '\r' :: t2 ++
      (if t2.length < s.last_length then List.replicate (s.last_length - t2.length) ' ' else [])
    ({ last_text := t2, last_length := t2.length, active := true, last_width := width }, out)

/-- Models `StatusDisplay.interrupt()`. -/
def StatusDisplay.interrupt (s : StatusDisplay) : StatusDisplay × List Char :=
  if s.active then
    ({ s with active := false }, '\r' :: (List.replicate s.last_length ' ' ++ ['\r']))
  else
    (s, ['\r'])

/-- Models `StatusDisplay.restore()` (`if not self._last_text: return` — the empty
string is falsy). -/
def StatusDisplay.restore (s : StatusDisplay) : StatusDisplay × List Char :=
  if s.last_text = [] then (s, [])
  else
    ({ s with active := true },
     '\r' :: s.last_text ++
       (if s.last_text.length < s.last_length then
          List.replicate (s.last_length - s.last_text.length) ' ' else []))

/-- Models `StatusDisplay.clear()`. -/
def StatusDisplay.clear (s : StatusDisplay) : StatusDisplay × List Char :=
  ({ last_text := [], last_length := 0, active := false, last_width := s.last_width },
   '\r' :: (List.replicate s.last_length ' ' ++ ['\r']))

/-- A public operation on the display (the `width` of a `write` is the
terminal width measured during that call). -/
inductive DisplayOp where
  | write (text : Option (List Char)) (width : ℕ)
  | interrupt
  | restore
  | clear
deriving DecidableEq

/-- Dispatch one operation. -/
def runOp (s : StatusDisplay) : DisplayOp → StatusDisplay × List Char
  | .write text width => s.write text width
  | .interrupt => s.interrupt
  | .restore => s.restore
  | .clear => s.clear

/-! ### The terminal model -/

/-- A single terminal line: its cell contents and the cursor column. -/
structure Term where
  line : List Char
  cursor : ℕ
deriving DecidableEq, Repr

/-- Terminal interpretation of one character: `'\r'` returns the cursor to
column 0, any other character overwrites the cell under the cursor (or
extends the line at its end) and advances the cursor. -/
def Term.putChar (t : Term) (c : Char) : Term :=
  if c = '\r' then { t with cursor := 0 }
  else
    { line := if t.cursor < t.line.length then t.line.set t.cursor c else t.line ++ [c],
      cursor := t.cursor + 1 }

/-- Feed a character stream to the terminal. -/
def Term.putStr (t : Term) (cs : List Char) : Term := cs.foldl Term.putChar t

/-- Strip the invisible trailing spaces of a line's cell contents. -/
def stripTrailingSpaces (l : List Char) : List Char :=
  (l.reverse.dropWhile (fun c => c = ' ')).reverse

/-- The visible text of the line: trailing spaces carry no visible glyph. -/
def Term.visible (t : Term) : List Char := stripTrailingSpaces t.line

/-- A display state paired with the terminal it writes to. -/
abbrev DisplayConfig := StatusDisplay × Term

/-- Run one display operation and apply its output to the terminal. -/
def runConfig (c : DisplayConfig) (op : DisplayOp) : DisplayConfig :=
  let p := runOp c.1 op
  (p.1, c.2.putStr p.2)

/-- Run a sequence of display operations from a configuration. -/
def runConfigs (c : DisplayConfig) (ops : List DisplayOp) : DisplayConfig :=
  ops.foldl runConfig c

/-- The initial configuration: fresh display object, empty terminal line. -/
def initConfig (width : ℕ) : DisplayConfig := (initDisplay width, ⟨[], 0⟩)

/-! ### Python numeric coercion and status formatting -/

/-- The exception classes distinguished by `_format_status`'s handlers. -/
inductive PyErr where
  | typeError
  | valueError
  | other
deriving DecidableEq, Repr

/-- A Python value handed to `float(...)`: it either converts to a number
or raises. -/
inductive PyNum where
  | num (x : ℚ)
  | raises (e : PyErr)
deriving DecidableEq, Repr

/-- Models `float(value)` where `value` came from `getattr(update, name, None)`:
`float(None)` raises `TypeError`; otherwise the value converts or raises. -/
def coerceFloat : Option PyNum → Except PyErr ℚ
  | none => .error .typeError
  | some (.num x) => .ok x
  | some (.raises e) => .error e

/-- Python fixed-point formatting `f"{x:w.pf}"`, modelled over ℚ with
rounding half away from even ignored (half-up); the digit-level rendering
is not load-bearing for any claim. -/
def fmtFixed (w p : ℕ) (x : ℚ) : List Char :=
  let scaled : ℤ := ⌊x * (10 : ℚ) ^ p + 1/2⌋
  let sgn : List Char := if scaled < 0 then pyStr "-" else []
  let m : ℕ := scaled.natAbs
  let ip : ℕ := m / 10 ^ p
  let fp : ℕ := m % 10 ^ p
  let fpDigits : List Char :=
    List.replicate (p - (toString fp).data.length) '0' ++ (toString fp).data
  let body := sgn ++ (toString ip).data ++ (if p = 0 then [] else '.' :: fpDigits)
  List.replicate (w - body.length) ' ' ++ body

/-- Models `safe_float` inside `_format_status`: `f"{float(value):8.3f}"` guarded
by `except (TypeError, ValueError)` → `"   n/a "` and `except Exception` →
`"   err "`. -/
def safe_float (value : Option PyNum) : List Char :=
  match coerceFloat value with
  | .ok x => fmtFixed 8 3 x
  | .error .typeError => pyStr "   n/a "
  | .error .valueError => pyStr "   n/a "
  | .error .other => pyStr "   err "

/-- The per-angle `try/except` of `_format_status` (`f"{...:6.2f}"`,
`"  n/a"`, `"  err"`); `none` models `hasattr(update, attr)` being false
(the angle is skipped entirely). -/
def angleEntry : Option PyNum → Option (List Char)
  | none => none
  | some n =>
    some (match coerceFloat (some n) with
      | .ok x => fmtFixed 6 2 x
      | .error .typeError => pyStr "  n/a"
      | .error .valueError => pyStr "  n/a"
      | .error .other => pyStr "  err")

/-- The update payload as `_format_status` and the handler access it:
every numeric field is `getattr`-defensive (`none` = absent), `timeStamp`
and `buttons` are rendered with `!s`/`str()` so they are modelled as their
displayed text, and `angle i` models `Angle1`..`Angle7` with `hasattr`. -/
structure UpdatePayload where
  X : Option PyNum
  Y : Option PyNum
  Z : Option PyNum
  A : Option PyNum
  B : Option PyNum
  C : Option PyNum
  timeStamp : Option (List Char)
  buttons : Option (List Char)
  angle : ℕ → Option PyNum

/-- A payload exposing no fields at all. -/
def emptyPayload : UpdatePayload :=
  ⟨none, none, none, none, none, none, none, none, fun _ => none⟩

/-- Models `FaroArmListener._format_status` (lines 201-240): builds the status
line; each numeric field goes through `safe_float`/the angle handler, then
newlines are collapsed and the result is truncated to 512 characters. -/
def formatStatus (update_count : ℕ) (avg_period : Option ℚ)
    (update : UpdatePayload) (dt : Option ℚ) (uptime : ℚ) : List Char :=
  let dt_ms : List Char := match dt with
    | some d => fmtFixed 6 1 (d * 1000) ++ pyStr "ms"
    | none => pyStr "   --- "
  let avg_hz : List Char := match avg_period with
    | some a => if a ≠ 0 ∧ a > 0 then fmtFixed 6 2 (1 / a) ++ pyStr "Hz" else pyStr "--.-Hz"
    | none => pyStr "--.-Hz"
  let buttons_display : List Char := match update.buttons with
    | some b => b
    | none => pyStr "-"
  let angles : List (List Char) :=
    (List.range' 1 7).filterMap (fun idx => angleEntry (update.angle idx))
  let angles_display : List Char :=
    if angles = [] then pyStr "n/a" else List.intercalate (pyStr ", ") angles
  let ts : List Char := match update.timeStamp with
    | some t => t
    | none => pyStr "-"
  let status : List Char :=
    pyStr "#" ++ (List.replicate (6 - (toString update_count).data.length) '0' ++
        (toString update_count).data) ++
    pyStr " | ts=" ++ (List.replicate (10 - ts.length) ' ' ++ ts) ++
    pyStr " | XYZ=(" ++ safe_float update.X ++ pyStr ", " ++ safe_float update.Y ++
    pyStr ", " ++ safe_float update.Z ++
    pyStr ") | ABC=(" ++ safe_float update.A ++ pyStr ", " ++ safe_float update.B ++
    pyStr ", " ++ safe_float update.C ++
    pyStr ") | Angles=(" ++ angles_display ++ pyStr ") | Buttons=" ++ buttons_display ++
    pyStr " | dt=" ++ dt_ms ++ pyStr " | avg=" ++ avg_hz ++
    pyStr " | uptime=" ++ fmtFixed 6 1 uptime ++ pyStr "s"
  (status.map (fun c => if c = '\n' then ' ' else c)).take 512

/-! ### The event handler and the watchdog -/

/-- The listener state shared between the event handler (single writer) and
the watchdog (reader): `_update_count`, `_last_receive_time`, `_avg_period`,
`_last_button_state` (as displayed text), `_start_time`.  Monotonic clock
readings are ℚ. -/
structure ListenerStats where
  update_count : ℕ
  last_receive_time : Option ℚ
  avg_period : Option ℚ
  last_button_state : Option (List Char)
  start_time : ℚ

/-- Lines 173-176 of the handler: initialize `_avg_period` to the first
observed `dt`, else exponentially smooth with weights 0.9 / 0.1. -/
def smoothedUpdate (avg : Option ℚ) (dt : ℚ) : ℚ :=
  match avg with
  | none => dt
  | some a => (9/10) * a + (1/10) * dt

/-- One invocation of the event handler built by
`FaroArmListener._build_handler`, at monotonic time `now`: bump the count,
smooth the period when a previous receive time exists, stamp
`_last_receive_time`, format and emit the status text, and track the
button state.  (The gap/first-update log lines carry no state.) -/
def ListenerStats.handlerStep (s : ListenerStats) (now : ℚ) (update : UpdatePayload) :
    ListenerStats × List Char :=
  let update_count := s.update_count + 1
  let p : Option ℚ × Option ℚ :=
    match s.last_receive_time with
    | some prev => (some (smoothedUpdate s.avg_period (now - prev)), some (now - prev))
    | none => (s.avg_period, none)
  let text := formatStatus update_count p.1 update p.2 (now - s.start_time)
  let buttons := update.buttons
  ({ update_count := update_count,
     last_receive_time := some now,
     avg_period := p.1,
     last_button_state :=
       if buttons ≠ s.last_button_state then buttons else s.last_button_state,
     start_time := s.start_time }, text)

/-- The watchdog's loop-local variables (`last_count`, `last_warning_time`). -/
structure WatchdogLocal where
  last_count : ℕ
  last_warning_time : ℚ
deriving DecidableEq, Repr

/-- The two warnings `_monitor_updates` can emit. -/
inductive WatchdogWarning where
  | noUpdates
  | stalled
deriving DecidableEq, Repr

/-- Initial loop-local state of `_monitor_updates`:
`last_count = 0`, `last_warning_time = 0.0`. -/
def initWatchdog : WatchdogLocal := ⟨0, 0⟩

/-- One iteration of the `while` body of `FaroArmListener._monitor_updates`
(lines 245-269), woken at monotonic time `now`: returns the new loop-local
state and the warning emitted, if any.  The `continue` after the
no-updates branch is reflected in the `else`-structure. -/
def monitorUpdatesTick (st : ListenerStats) (w : WatchdogLocal) (now : ℚ) :
    WatchdogLocal × Option WatchdogWarning :=
  let elapsed_since_start := now - st.start_time
  if st.update_count = 0 ∧ elapsed_since_start > 2 then
    if now - w.last_warning_time > 5 then
      ({ w with last_warning_time := now }, some .noUpdates)
    else (w, none)
  else if st.update_count = w.last_count then
    match st.last_receive_time with
    | some lrt =>
      if now - lrt > 3 then
        if now - w.last_warning_time > 5 then
          ({ w with last_warning_time := now }, some .stalled)
        else (w, none)
      else (w, none)
    | none => (w, none)
  else ({ w with last_count := st.update_count }, none)

/-- Modelled from the spec's wording (for comparison with the code): "zero
updates have ever been received and more than 2.0 seconds have elapsed
since start, and at least 5.0 seconds have passed since the last warning". -/
def specNoUpdatesCondition (st : ListenerStats) (w : WatchdogLocal) (now : ℚ) : Prop :=
  st.update_count = 0 ∧ now - st.start_time > 2 ∧ now - w.last_warning_time ≥ 5

/-- Modelled from the spec's wording (for comparison with the code): "the
update_count has not advanced since the last tick, and the time since
last_receive_time exceeds 3.0 seconds, and at least 5.0 seconds have
passed since the last warning". -/
def specStalledCondition (st : ListenerStats) (w : WatchdogLocal) (now : ℚ) : Prop :=
  st.update_count = w.last_count ∧
  (∃ lrt, st.last_receive_time = some lrt ∧ now - lrt > 3) ∧
  now - w.last_warning_time ≥ 5

/-! ### The status-aware logging handler -/

/-- Observable events of `StatusAwareStreamHandler.emit`. -/
inductive EmitEvent where
  | interrupted
  | streamEmit
  | restored
deriving DecidableEq, Repr

/-- A computation's observable effect: the ordered trace of emit events and
its outcome (normal return or a propagating exception). -/
structure Eff where
  trace : List EmitEvent
  result : Except PyErr Unit

/-- Models `STATUS_DISPLAY.interrupt()` — never raises. -/
def interruptEff : Eff := ⟨[.interrupted], .ok ()⟩

/-- Models `STATUS_DISPLAY.restore()` — never raises. -/
def restoreEff : Eff := ⟨[.restored], .ok ()⟩

/-- Models `super().emit(record)` with outcome `r` (the underlying stream emission
may raise). -/
def streamEmitEff (r : Except PyErr Unit) : Eff := ⟨[.streamEmit], r⟩

/-- Python sequencing: if the first statement raises, the second never runs. -/
def seqEff (a b : Eff) : Eff :=
  match a.result with
  | .ok _ => ⟨a.trace ++ b.trace, b.result⟩
  | .error e => ⟨a.trace, .error e⟩

/-- Python `try: body finally: fin`: `fin` always runs; a body exception
propagates afterwards (an exception in `fin` would replace it). -/
def tryFinallyEff (body fin : Eff) : Eff :=
  ⟨body.trace ++ fin.trace,
   match body.result, fin.result with
   | .ok _, r => r
   | .error e, .ok _ => .error e
   | .error _, .error e2 => .error e2⟩

/-- Models `StatusAwareStreamHandler.emit` (lines 90-95): `interrupt()`, then
`try: super().emit(record) finally: restore()`. -/
def StatusAwareStreamHandler.emit (streamResult : Except PyErr Unit) : Eff :=
  seqEff interruptEff (tryFinallyEff (streamEmitEff streamResult) restoreEff)

/-! ### The display/terminal invariant -/

/-- The state part of the invariant: `_last_length` tracks `len(_last_text)`. -/
def DisplayInv (s : StatusDisplay) : Prop := s.last_length = s.last_text.length

/-- An operation whose text argument is free of carriage returns (a raw
`'\r'` embedded in a status text would be interpreted by the terminal
itself; every claim about visible text concerns printable input). -/
def CleanOp : DisplayOp → Prop
  | .write (some t) _ => '\r' ∉ t
  | _ => True

/-- Invariant tying a display state to the terminal it has been writing
to: `_last_length` tracks the text length, the remembered text is
printable, the cursor is inside the line, and the line holds the
remembered text (when active) or only spaces (when inactive), space-padded. -/
structure ConfigInv (c : DisplayConfig) : Prop where
  len_eq : c.1.last_length = c.1.last_text.length
  no_cr : '\r' ∉ c.1.last_text
  cursor_le : c.2.cursor ≤ c.2.line.length
  line_active : c.1.active = true → ∃ k, c.2.line = c.1.last_text ++ List.replicate k ' '
  line_inactive : c.1.active = false → ∃ m, c.2.line = List.replicate m ' '

/-! ### Elementary facts about truncation -/

theorem normalize_length (t : List Char) : (normalizeText t).length = t.length := by
  simp [normalizeText]

theorem truncToWidth_length_of_gt {t1 : List Char} {width : ℕ}
    (h : t1.length > max 20 (width - 1)) :
    (truncToWidth t1 width).length = max 20 (width - 1) := by
  have h20 : 20 ≤ max 20 (width - 1) := le_max_left _ _
  simp only [truncToWidth, if_pos h, List.length_append, List.length_take]
  have : max 20 (width - 1) - 3 ≤ t1.length := by omega
  simp [pyStr]
  omega

theorem truncToWidth_of_le {t1 : List Char} {width : ℕ}
    (h : t1.length ≤ max 20 (width - 1)) :
    truncToWidth t1 width = t1 := by
  simp only [truncToWidth]
  rw [if_neg (by omega)]

theorem truncToWidth_drop_of_gt {t1 : List Char} {width : ℕ}
    (h : t1.length > max 20 (width - 1)) :
    (truncToWidth t1 width).drop (max 20 (width - 1) - 3) = pyStr "..." := by
  simp only [truncToWidth, if_pos h]
  have hlen : (t1.take (max 20 (width - 1) - 3)).length = max 20 (width - 1) - 3 := by
    have h20 : 20 ≤ max 20 (width - 1) := le_max_left _ _
    simp [List.length_take]
    omega
  exact List.drop_left' hlen

/-! ### Claim C1 -/

/-- C1 (amended): after `StatusDisplay.write` with non-null text, the state's
`_last_length` equals the length of the new text (after newline
normalization and truncation) — not the max with the prior value — and the
characters emitted are exactly a carriage return, the new text, and
`max(0, prior _last_length − new length)` erasing spaces. -/
theorem claim_C1_amended (s : StatusDisplay) (t : List Char) (width : ℕ) :
    (s.write (some t) width).1.last_length = (truncToWidth (normalizeText t) width).length ∧
    (s.write (some t) width).1.last_text = truncToWidth (normalizeText t) width ∧
    (s.write (some t) width).2 =
      '\r' :: (truncToWidth (normalizeText t) width ++
        List.replicate (s.last_length - (truncToWidth (normalizeText t) width).length) ' ') := by
  refine ⟨rfl, rfl, ?_⟩
  by_cases h : (truncToWidth (normalizeText t) width).length < s.last_length
  · simp [StatusDisplay.write, h]
  · have h0 : s.last_length - (truncToWidth (normalizeText t) width).length = 0 := by omega
    simp [StatusDisplay.write, h, h0]

/-- C1 counterexample: writing `"abcde"` then `"ab"` (terminal width 120)
leaves `_last_length = 2`, the new text's length, whereas the claim
demands `max 2 5 = 5`. -/
theorem claim_C1_counterexample :
    (((initDisplay 120).write (some (pyStr "abcde")) 120).1.write
        (some (pyStr "ab")) 120).1.last_length = 2 ∧
    ((initDisplay 120).write (some (pyStr "abcde")) 120).1.last_length = 5 ∧
    (2 : ℕ) ≠
      max (truncToWidth (normalizeText (pyStr "ab")) 120).length
        ((initDisplay 120).write (some (pyStr "abcde")) 120).1.last_length := by
  decide

/-! ### Claims C3 and C10 -/

/-- C3 (amended): with `L = max 20 (width − 1)` as the effective limit
(not `width − 1` itself), any normalized text longer than `L` is shortened
so its length equals `L` and it ends with the three-character ellipsis
marker `"..."`; normalized text of length at most `L` is kept unchanged. -/
theorem claim_C3_amended (s : StatusDisplay) (t : List Char) (width : ℕ) :
    ((normalizeText t).length > max 20 (width - 1) →
      (s.write (some t) width).1.last_text.length = max 20 (width - 1) ∧
      (s.write (some t) width).1.last_text.drop (max 20 (width - 1) - 3) = pyStr "...") ∧
    ((normalizeText t).length ≤ max 20 (width - 1) →
      (s.write (some t) width).1.last_text = normalizeText t) := by
  constructor
  · intro h
    exact ⟨truncToWidth_length_of_gt h, truncToWidth_drop_of_gt h⟩
  · intro h
    exact truncToWidth_of_le h

/-- Closed instance of `claim_C3_amended`: at width 30 a 40-character text is
cut to 29 = 30 − 1 characters ending in `"..."`, and `"hello"` is unchanged. -/
theorem claim_C3_witness :
    (((initDisplay 30).write (some (List.replicate 40 'x')) 30).1.last_text.length
        = max 20 (30 - 1) ∧
      ((initDisplay 30).write (some (List.replicate 40 'x')) 30).1.last_text.drop
        (max 20 (30 - 1) - 3) = pyStr "...") ∧
    ((initDisplay 30).write (some (pyStr "hello")) 30).1.last_text
      = normalizeText (pyStr "hello") :=
  ⟨(claim_C3_amended (initDisplay 30) (List.replicate 40 'x') 30).1 (by decide),
   (claim_C3_amended (initDisplay 30) (pyStr "hello") 30).2 (by decide)⟩

/-- C3 counterexample: at measured width 10 a 15-character text exceeds
`width − 1 = 9` but is *not* truncated (15 ≤ the effective limit 20), so the
displayed length is 15, not 9 as the claim requires. -/
theorem claim_C3_counterexample :
    ((initDisplay 10).write (some (List.replicate 15 'x')) 10).1.last_text.length = 15 ∧
    (15 : ℕ) ≠ 10 - 1 := by
  decide

/-- C10: `StatusDisplay.write` enforces a minimum effective line budget of
20 characters: for any width below 21 a normalized text longer than 20 is
cut to exactly 20 characters ending with the ellipsis marker, and no
normalized text of length at most 20 is ever truncated, at any width. -/
theorem claim_C10 (s : StatusDisplay) (t : List Char) (width : ℕ) :
    (width < 21 → (normalizeText t).length > 20 →
      (s.write (some t) width).1.last_text.length = 20 ∧
      (s.write (some t) width).1.last_text.drop 17 = pyStr "...") ∧
    ((normalizeText t).length ≤ 20 →
      (s.write (some t) width).1.last_text = normalizeText t) := by
  constructor
  · intro hw h
    have hmax : max 20 (width - 1) = 20 := by omega
    have h' : (normalizeText t).length > max 20 (width - 1) := by omega
    refine ⟨?_, ?_⟩
    · rw [show (s.write (some t) width).1.last_text = truncToWidth (normalizeText t) width
        from rfl, truncToWidth_length_of_gt h', hmax]
    · have := truncToWidth_drop_of_gt h'
      rw [hmax] at this
      exact this
  · intro h
    have h' : (normalizeText t).length ≤ max 20 (width - 1) := le_trans h (le_max_left _ _)
    exact truncToWidth_of_le h'

/-- Closed instance of `claim_C10`: at width 8 a 25-character text is cut to
20 characters ending in `"..."`; a 12-character text survives width 8. -/
theorem claim_C10_witness :
    ((((initDisplay 8).write (some (List.replicate 25 'x')) 8).1.last_text.length = 20 ∧
      ((initDisplay 8).write (some (List.replicate 25 'x')) 8).1.last_text.drop 17
        = pyStr "...")) ∧
    ((initDisplay 8).write (some (List.replicate 12 'y')) 8).1.last_text
      = normalizeText (List.replicate 12 'y') :=
  ⟨(claim_C10 (initDisplay 8) (List.replicate 25 'x') 8).1 (by decide) (by decide),
   (claim_C10 (initDisplay 8) (List.replicate 12 'y') 8).2 (by decide)⟩

/-! ### Terminal machine lemmas -/

theorem Term.putStr_append (t : Term) (a b : List Char) :
    t.putStr (a ++ b) = (t.putStr a).putStr b := by
  simp [Term.putStr, List.foldl_append]

theorem Term.putStr_cr_cons (t : Term) (cs : List Char) :
    t.putStr ('\r' :: cs) = Term.putStr ⟨t.line, 0⟩ cs := by
  simp [Term.putStr, Term.putChar]

/-- Writing a carriage-return-free string starting at a cursor inside the
line overwrites cell by cell (extending the line at its end). -/
theorem Term.putStr_overwrite (cs : List Char) :
    ∀ (l : List Char) (i : ℕ), '\r' ∉ cs → i ≤ l.length →
    Term.putStr ⟨l, i⟩ cs =
      ⟨l.take i ++ cs ++ l.drop (i + cs.length), i + cs.length⟩ := by
  induction cs with
  | nil =>
    intro l i _ _
    simp [Term.putStr]
  | cons c cs ih =>
    intro l i hcr hi
    have hc : c ≠ '\r' := fun h => hcr (h ▸ List.mem_cons_self c cs)
    have hcs : '\r' ∉ cs := fun h => hcr (List.mem_cons_of_mem c h)
    have hstep : Term.putStr ⟨l, i⟩ (c :: cs) =
        Term.putStr (Term.putChar ⟨l, i⟩ c) cs := rfl
    rw [hstep]
    by_cases hlt : i < l.length
    · have hpc : Term.putChar ⟨l, i⟩ c = ⟨l.set i c, i + 1⟩ := by
        simp [Term.putChar, hc, hlt]
      rw [hpc, ih (l.set i c) (i + 1) hcs (by simp; omega)]
      have htk : (l.take i).length = i := List.length_take_of_le (le_of_lt hlt)
      have hA : (l.set i c).take (i + 1) = l.take i ++ [c] := by
        rw [List.set_eq_take_cons_drop c hlt]
        have : i + 1 = (l.take i).length + 1 := by omega
        rw [this, List.take_append]
        simp
      have hB : (l.set i c).drop (i + 1 + cs.length) = l.drop (i + 1 + cs.length) := by
        rw [List.drop_set, if_pos (by omega)]
      rw [hA, hB]
      have hn : i + 1 + cs.length = i + (cs.length + 1) := by omega
      rw [hn]
      simp
    · have hie : i = l.length := by omega
      have hpc : Term.putChar ⟨l, i⟩ c = ⟨l ++ [c], i + 1⟩ := by
        simp [Term.putChar, hc, hlt]
      rw [hpc, ih (l ++ [c]) (i + 1) hcs (by simp [hie])]
      congr 1
      · rw [List.take_of_length_le (by simp [hie]),
            List.drop_of_length_le (by simp; omega),
            List.take_of_length_le (le_of_eq hie.symm),
            List.drop_of_length_le (by omega)]
        simp
      · simp [List.length_cons]
        omega

/-- Writing a carriage-return-free string from column 0. -/
theorem Term.putStr_from_zero (cs l : List Char) (hcr : '\r' ∉ cs) :
    Term.putStr ⟨l, 0⟩ cs = ⟨cs ++ l.drop cs.length, cs.length⟩ := by
  have h := Term.putStr_overwrite cs l 0 hcr (Nat.zero_le _)
  simp only [List.take_zero, List.nil_append, Nat.zero_add] at h
  exact h

theorem stripTrailingSpaces_replicate (n : ℕ) :
    stripTrailingSpaces (List.replicate n ' ') = [] := by
  simp [stripTrailingSpaces, List.dropWhile_replicate]

theorem stripTrailingSpaces_append_replicate (xs : List Char) (k : ℕ) :
    stripTrailingSpaces (xs ++ List.replicate k ' ') = stripTrailingSpaces xs := by
  simp only [stripTrailingSpaces, List.reverse_append, List.reverse_replicate]
  congr 1
  induction k with
  | zero => simp
  | succ n ih =>
    simp only [List.replicate_succ, List.cons_append, List.dropWhile_cons]
    simp only [decide_eq_true_eq, if_pos rfl]
    exact ih

/-- Dropping at or past the real text of a space-padded line leaves only spaces. -/
theorem drop_text_padding {X : List Char} {k n : ℕ} (h : X.length ≤ n) :
    (X ++ List.replicate k ' ').drop n = List.replicate (X.length + k - n) ' ' := by
  rw [List.drop_append_eq_append_drop, List.drop_of_length_le h, List.drop_replicate]
  simp only [List.nil_append]
  congr 1
  omega

/-! ### The display/terminal invariant (lemmas) -/

theorem no_cr_normalizeText {t : List Char} (h : '\r' ∉ t) : '\r' ∉ normalizeText t := by
  simp only [normalizeText, List.mem_map, not_exists]
  rintro a ⟨ha, hfa⟩
  by_cases h' : a = '\n'
  · rw [if_pos h'] at hfa
    exact absurd hfa (by decide)
  · rw [if_neg h'] at hfa
    exact h (hfa ▸ ha)

theorem no_cr_truncToWidth {t1 : List Char} {w : ℕ} (h : '\r' ∉ t1) :
    '\r' ∉ truncToWidth t1 w := by
  simp only [truncToWidth]
  split
  · intro hm
    rcases List.mem_append.1 hm with hm | hm
    · exact h (List.mem_of_mem_take hm)
    · exact absurd hm (by decide)
  · exact h

theorem no_cr_spaces (n : ℕ) : '\r' ∉ List.replicate n ' ' := by
  intro h
  exact absurd (List.eq_of_mem_replicate h) (by decide)

/-- Under the invariant, everything at or past column `_last_length` of the
line is a space. -/
theorem line_drop_spaces {s : StatusDisplay} {tm : Term}
    (hlen : s.last_length = s.last_text.length)
    (hact : s.active = true → ∃ k, tm.line = s.last_text ++ List.replicate k ' ')
    (hina : s.active = false → ∃ m, tm.line = List.replicate m ' ')
    {n : ℕ} (hn : s.last_length ≤ n) :
    tm.line.drop n = List.replicate (tm.line.length - n) ' ' := by
  cases hA : s.active
  · obtain ⟨m, hm⟩ := hina hA
    rw [hm, List.drop_replicate]
    simp
  · obtain ⟨k, hk⟩ := hact hA
    rw [hk, drop_text_padding (by omega)]
    simp [List.length_append]

/-- The characters `StatusDisplay.write` emits for non-null text, with the
two padding branches folded into one `ℕ`-subtraction replicate. -/
theorem write_out_eq (s : StatusDisplay) (t : List Char) (width : ℕ) :
    (s.write (some t) width).2 =
      '\r' :: (truncToWidth (normalizeText t) width ++
        List.replicate (s.last_length - (truncToWidth (normalizeText t) width).length) ' ') := by
  by_cases h : (truncToWidth (normalizeText t) width).length < s.last_length
  · simp [StatusDisplay.write, h]
  · have h0 : s.last_length - (truncToWidth (normalizeText t) width).length = 0 := by omega
    simp [StatusDisplay.write, h, h0]

/-- One clean display operation preserves the invariant. -/
theorem configInv_step {c : DisplayConfig} {op : DisplayOp}
    (h : ConfigInv c) (hop : CleanOp op) : ConfigInv (runConfig c op) := by
  obtain ⟨s, tm⟩ := c
  obtain ⟨hlen, hcr, hcur, hact, hina⟩ := h
  replace hlen : s.last_length = s.last_text.length := hlen
  replace hcr : '\r' ∉ s.last_text := hcr
  replace hcur : tm.cursor ≤ tm.line.length := hcur
  replace hact : s.active = true → ∃ k, tm.line = s.last_text ++ List.replicate k ' ' := hact
  replace hina : s.active = false → ∃ m, tm.line = List.replicate m ' ' := hina
  cases op with
  | write text w =>
    cases text with
    | none => exact ⟨hlen, hcr, hcur, hact, hina⟩
    | some t =>
      have hct : '\r' ∉ t := hop
      have hcr2 : '\r' ∉ truncToWidth (normalizeText t) w :=
        no_cr_truncToWidth (no_cr_normalizeText hct)
      have hrest : '\r' ∉ truncToWidth (normalizeText t) w ++
          List.replicate (s.last_length - (truncToWidth (normalizeText t) w).length) ' ' := by
        intro hm
        rcases List.mem_append.1 hm with hm | hm
        · exact hcr2 hm
        · exact no_cr_spaces _ hm
      have hdrop := line_drop_spaces hlen hact hina
        (n := (truncToWidth (normalizeText t) w).length +
          (s.last_length - (truncToWidth (normalizeText t) w).length))
        (by omega)
      have hstate : (s.write (some t) w).1 =
          ⟨truncToWidth (normalizeText t) w, (truncToWidth (normalizeText t) w).length,
            true, w⟩ := rfl
      have hshape : runConfig (s, tm) (.write (some t) w) =
          (⟨truncToWidth (normalizeText t) w, (truncToWidth (normalizeText t) w).length,
              true, w⟩,
            ⟨(truncToWidth (normalizeText t) w ++
                List.replicate (s.last_length - (truncToWidth (normalizeText t) w).length) ' ') ++
              tm.line.drop ((truncToWidth (normalizeText t) w).length +
                (s.last_length - (truncToWidth (normalizeText t) w).length)),
              (truncToWidth (normalizeText t) w).length +
                (s.last_length - (truncToWidth (normalizeText t) w).length)⟩) := by
        show ((s.write (some t) w).1, tm.putStr (s.write (some t) w).2) = _
        rw [hstate, write_out_eq, Term.putStr_cr_cons, Term.putStr_from_zero _ _ hrest]
        simp [List.length_append]
      rw [hshape]
      refine ⟨rfl, hcr2, ?_, ?_, ?_⟩
      · dsimp only
        simp only [List.length_append, List.length_replicate]
        omega
      · intro _
        refine ⟨(s.last_length - (truncToWidth (normalizeText t) w).length) +
          (tm.line.length - ((truncToWidth (normalizeText t) w).length +
            (s.last_length - (truncToWidth (normalizeText t) w).length))), ?_⟩
        dsimp only
        rw [hdrop, List.append_assoc, ← List.replicate_add]
      · intro hfalse
        exact Bool.noConfusion hfalse
  | interrupt =>
    cases hA : s.active
    · have hshape : runConfig (s, tm) .interrupt = (s, ⟨tm.line, 0⟩) := by
        show (s.interrupt.1, tm.putStr s.interrupt.2) = _
        unfold StatusDisplay.interrupt
        rw [hA]
        simp [Term.putStr, Term.putChar]
      rw [hshape]
      exact ⟨hlen, hcr, Nat.zero_le _, hact, hina⟩
    · have hdrop := line_drop_spaces hlen hact hina (n := s.last_length) le_rfl
      have hshape : runConfig (s, tm) .interrupt =
          ({s with active := false},
            ⟨List.replicate s.last_length ' ' ++ tm.line.drop s.last_length, 0⟩) := by
        show (s.interrupt.1, tm.putStr s.interrupt.2) = _
        unfold StatusDisplay.interrupt
        rw [hA]
        rw [if_pos rfl, Term.putStr_cr_cons, Term.putStr_append,
          Term.putStr_from_zero _ _ (no_cr_spaces _)]
        simp [Term.putStr, Term.putChar, List.length_replicate]
      rw [hshape, hdrop]
      refine ⟨hlen, hcr, Nat.zero_le _, ?_, ?_⟩
      · intro hfalse
        exact Bool.noConfusion hfalse
      · intro _
        exact ⟨s.last_length + (tm.line.length - s.last_length), by rw [List.replicate_add]⟩
  | restore =>
    by_cases hE : s.last_text = []
    · have hshape : runConfig (s, tm) .restore = (s, tm) := by
        show (s.restore.1, tm.putStr s.restore.2) = _
        unfold StatusDisplay.restore
        rw [if_pos hE]
        rfl
      rw [hshape]
      exact ⟨hlen, hcr, hcur, hact, hina⟩
    · have hpad : ¬ (s.last_text.length < s.last_length) := by omega
      have hdrop := line_drop_spaces hlen hact hina (n := s.last_text.length) (by omega)
      have hshape : runConfig (s, tm) .restore =
          ({s with active := true},
            ⟨s.last_text ++ tm.line.drop s.last_text.length, s.last_text.length⟩) := by
        show (s.restore.1, tm.putStr s.restore.2) = _
        unfold StatusDisplay.restore
        rw [if_neg hE, if_neg hpad, List.append_nil, Term.putStr_cr_cons,
          Term.putStr_from_zero _ _ hcr]
      rw [hshape, hdrop]
      refine ⟨hlen, hcr, ?_, ?_, ?_⟩
      · simp [List.length_append]
      · intro _
        exact ⟨tm.line.length - s.last_text.length, rfl⟩
      · intro hfalse
        exact Bool.noConfusion hfalse
  | clear =>
    have hdrop := line_drop_spaces hlen hact hina (n := s.last_length) le_rfl
    have hshape : runConfig (s, tm) .clear =
        (⟨[], 0, false, s.last_width⟩,
          ⟨List.replicate s.last_length ' ' ++ tm.line.drop s.last_length, 0⟩) := by
      show (s.clear.1, tm.putStr s.clear.2) = _
      unfold StatusDisplay.clear
      rw [Term.putStr_cr_cons, Term.putStr_append,
        Term.putStr_from_zero _ _ (no_cr_spaces _)]
      simp [Term.putStr, Term.putChar, List.length_replicate]
    rw [hshape, hdrop]
    refine ⟨rfl, by exact List.not_mem_nil '\r', Nat.zero_le _, ?_, ?_⟩
    · intro hfalse
      exact Bool.noConfusion hfalse
    · intro _
      exact ⟨s.last_length + (tm.line.length - s.last_length), by rw [List.replicate_add]⟩

/-- The invariant holds of the initial configuration. -/
theorem configInv_init (w : ℕ) : ConfigInv (initConfig w) := by
  refine ⟨rfl, by exact List.not_mem_nil '\r', Nat.zero_le _, ?_, ?_⟩
  · intro hfalse
    exact Bool.noConfusion hfalse
  · intro _
    exact ⟨0, rfl⟩

/-- The invariant holds after any sequence of clean operations. -/
theorem configInv_runConfigs :
    ∀ (ops : List DisplayOp) (c : DisplayConfig), ConfigInv c →
      (∀ op ∈ ops, CleanOp op) → ConfigInv (runConfigs c ops) := by
  intro ops
  induction ops with
  | nil => intro c h _; exact h
  | cons op ops ih =>
    intro c h hclean
    have h1 : ConfigInv (runConfig c op) :=
      configInv_step h (hclean op (List.mem_cons_self op ops))
    exact ih _ h1 (fun o ho => hclean o (List.mem_cons_of_mem op ho))

/-! ### Claim C9 -/

/-- C9: `_last_length` always equals `len(_last_text)`: this holds of the
initial state and is preserved by every operation (`write`, `interrupt`,
`restore`, `clear`); consequently the padding branch inside `restore`
(pad when the remembered text is shorter than `_last_length`) is never
taken, and `restore` emits the remembered text with no padding. -/
theorem claim_C9 :
    (∀ w, DisplayInv (initDisplay w)) ∧
    (∀ (s : StatusDisplay) (op : DisplayOp), DisplayInv s → DisplayInv (runOp s op).1) ∧
    (∀ s : StatusDisplay, DisplayInv s → ¬ (s.last_text.length < s.last_length)) ∧
    (∀ s : StatusDisplay, DisplayInv s →
      (runOp s .restore).2 = if s.last_text = [] then [] else '\r' :: s.last_text) := by
  refine ⟨fun _ => rfl, ?_, ?_, ?_⟩
  · intro s op h
    cases op with
    | write text w =>
      cases text with
      | none => exact h
      | some t => exact rfl
    | interrupt =>
      simp only [runOp, StatusDisplay.interrupt]
      split
      · exact h
      · exact h
    | restore =>
      simp only [runOp, StatusDisplay.restore]
      split
      · exact h
      · exact h
    | clear => exact rfl
  · intro s h
    replace h : s.last_length = s.last_text.length := h
    omega
  · intro s h
    replace h : s.last_length = s.last_text.length := h
    by_cases hE : s.last_text = []
    · simp only [runOp, StatusDisplay.restore, if_pos hE]
    · have hpad : ¬ (s.last_text.length < s.last_length) := by omega
      simp only [runOp, StatusDisplay.restore, if_neg hE, if_neg hpad]
      rw [List.append_nil]

/-- Closed instance of `claim_C9` at the initial state with width 80 and
the `interrupt` operation. -/
theorem claim_C9_witness :
    DisplayInv (initDisplay 80) ∧
    DisplayInv (runOp (initDisplay 80) .interrupt).1 ∧
    ¬ ((initDisplay 80).last_text.length < (initDisplay 80).last_length) ∧
    (runOp (initDisplay 80) .restore).2 =
      (if (initDisplay 80).last_text = [] then []
       else '\r' :: (initDisplay 80).last_text) :=
  ⟨claim_C9.1 80,
   claim_C9.2.1 (initDisplay 80) .interrupt rfl,
   claim_C9.2.2.1 (initDisplay 80) rfl,
   claim_C9.2.2.2 (initDisplay 80) rfl⟩

/-! ### Claim C5 -/

/-- Effect of `interrupt` on a configuration whose display is active. -/
theorem runConfig_interrupt_active {st : StatusDisplay} {t0 : Term} (hA : st.active = true) :
    runConfig (st, t0) .interrupt =
      ({st with active := false},
        ⟨List.replicate st.last_length ' ' ++ t0.line.drop st.last_length, 0⟩) := by
  show (st.interrupt.1, t0.putStr st.interrupt.2) = _
  unfold StatusDisplay.interrupt
  rw [hA, if_pos rfl, Term.putStr_cr_cons, Term.putStr_append,
    Term.putStr_from_zero _ _ (no_cr_spaces _)]
  simp [Term.putStr, Term.putChar, List.length_replicate]

/-- Running `restore` is a no-op when no text is remembered. -/
theorem runConfig_restore_empty {st : StatusDisplay} {t0 : Term} (hE : st.last_text = []) :
    runConfig (st, t0) .restore = (st, t0) := by
  show (st.restore.1, t0.putStr st.restore.2) = _
  unfold StatusDisplay.restore
  rw [if_pos hE]
  rfl

/-- Effect of `restore` with remembered text, when the padding branch is
closed (`len(_last_text) ≥ _last_length`) and the text is printable. -/
theorem runConfig_restore_nonempty {st : StatusDisplay} {t0 : Term}
    (hE : ¬ st.last_text = []) (hpad : ¬ (st.last_text.length < st.last_length))
    (hcr : '\r' ∉ st.last_text) :
    runConfig (st, t0) .restore =
      ({st with active := true},
        ⟨st.last_text ++ t0.line.drop st.last_text.length, st.last_text.length⟩) := by
  show (st.restore.1, t0.putStr st.restore.2) = _
  unfold StatusDisplay.restore
  rw [if_neg hE, if_neg hpad, List.append_nil, Term.putStr_cr_cons,
    Term.putStr_from_zero _ _ hcr]

/-- C5 (amended): `interrupt()` immediately followed by `restore()` never
changes `_last_text` or `_last_length`; and whenever the status line is
*active* before the pair (the scenario around a log line), the visible
terminal text afterwards is exactly the visible text beforehand.  (From an
inactive state with remembered text — e.g. between a pending `interrupt`
and its `restore` — the pair makes the remembered text reappear, so the
activity precondition cannot be dropped.) -/
theorem claim_C5_amended :
    (∀ s : StatusDisplay,
      s.interrupt.1.restore.1.last_text = s.last_text ∧
      s.interrupt.1.restore.1.last_length = s.last_length) ∧
    (∀ (w : ℕ) (ops : List DisplayOp), (∀ op ∈ ops, CleanOp op) →
      (runConfigs (initConfig w) ops).1.active = true →
      Term.visible
          (runConfig (runConfig (runConfigs (initConfig w) ops) .interrupt) .restore).2
        = Term.visible (runConfigs (initConfig w) ops).2) := by
  constructor
  · intro s
    by_cases hA : s.active <;> by_cases hE : s.last_text = [] <;>
      simp [StatusDisplay.interrupt, StatusDisplay.restore, hA, hE]
  · intro w ops hclean hA
    have hinv : ConfigInv (runConfigs (initConfig w) ops) :=
      configInv_runConfigs ops _ (configInv_init w) hclean
    generalize hgen : runConfigs (initConfig w) ops = C at hA hinv ⊢
    obtain ⟨s, tm⟩ := C
    dsimp only at hA ⊢
    obtain ⟨hlen, hcr, hcur, hact, hina⟩ := hinv
    replace hlen : s.last_length = s.last_text.length := hlen
    replace hcr : '\r' ∉ s.last_text := hcr
    obtain ⟨k, hk⟩ := hact hA
    replace hk : tm.line = s.last_text ++ List.replicate k ' ' := hk
    have hd : tm.line.drop s.last_length = List.replicate k ' ' := by
      rw [hk, hlen, List.drop_left]
    rw [runConfig_interrupt_active hA, hd]
    by_cases hE : s.last_text = []
    · rw [runConfig_restore_empty (show ({s with active := false}).last_text = [] from hE)]
      show stripTrailingSpaces _ = stripTrailingSpaces _
      rw [stripTrailingSpaces_append_replicate, stripTrailingSpaces_replicate,
        hk, hE, List.nil_append, stripTrailingSpaces_replicate]
    · have hpad : ¬ (({s with active := false}).last_text.length <
          ({s with active := false}).last_length) := by
        show ¬ (s.last_text.length < s.last_length)
        omega
      rw [runConfig_restore_nonempty
        (show ¬ ({s with active := false}).last_text = [] from hE) hpad
        (show '\r' ∉ ({s with active := false}).last_text from hcr)]
      show stripTrailingSpaces _ = stripTrailingSpaces _
      have hd2 : (List.replicate s.last_length ' ' ++ List.replicate k ' ').drop
          (({s with active := false}).last_text.length) = List.replicate k ' ' := by
        show (List.replicate s.last_length ' ' ++ List.replicate k ' ').drop
          s.last_text.length = List.replicate k ' '
        rw [← hlen]
        exact List.drop_left' (List.length_replicate _ _)
      rw [hd2, hk]

/-- Closed instance of `claim_C5_amended`: after `write "hi"` (active state)
the pair `interrupt; restore` leaves the visible line `"hi"` and the state
fields unchanged. -/
theorem claim_C5_witness :
    ((initDisplay 120).write (some (pyStr "hi")) 120).1.interrupt.1.restore.1.last_text
        = ((initDisplay 120).write (some (pyStr "hi")) 120).1.last_text ∧
    Term.visible
        (runConfig (runConfig
          (runConfigs (initConfig 120) [.write (some (pyStr "hi")) 120]) .interrupt)
          .restore).2
      = Term.visible (runConfigs (initConfig 120) [.write (some (pyStr "hi")) 120]).2 :=
  ⟨(claim_C5_amended.1 ((initDisplay 120).write (some (pyStr "hi")) 120).1).1,
   claim_C5_amended.2 120 [.write (some (pyStr "hi")) 120]
     (by
       intro op hop
       rcases List.mem_singleton.1 hop with rfl
       exact (by decide : '\r' ∉ pyStr "hi"))
     (by decide)⟩

/-- C5 counterexample: in the reachable state after `write "hi"; interrupt`
(remembered text `"hi"`, inactive), the visible line is empty, yet after a
further `interrupt(); restore()` pair it reads `"hi"` — the pair does not
reproduce the prior visible text for every state. -/
theorem claim_C5_counterexample :
    Term.visible
        (runConfigs (initConfig 120)
          [.write (some (pyStr "hi")) 120, .interrupt]).2 = [] ∧
    Term.visible
        (runConfig (runConfig
          (runConfigs (initConfig 120) [.write (some (pyStr "hi")) 120, .interrupt])
          .interrupt) .restore).2 = pyStr "hi" := by
  constructor
  · decide
  · decide

/-! ### Claims C2 and C6 (watchdog) -/

/-- Characterization: a tick emits the "no updates" warning exactly when
`update_count = 0`, strictly more than 2 s have elapsed since start, and
strictly more than 5 s have passed since `last_warning_time`. -/
theorem monitorTick_noUpdates_iff (st : ListenerStats) (w : WatchdogLocal) (now : ℚ) :
    (monitorUpdatesTick st w now).2 = some WatchdogWarning.noUpdates ↔
      (st.update_count = 0 ∧ now - st.start_time > 2 ∧ now - w.last_warning_time > 5) := by
  unfold monitorUpdatesTick
  by_cases h1 : st.update_count = 0 ∧ now - st.start_time > 2
  · rw [if_pos h1]
    by_cases h2 : now - w.last_warning_time > 5
    · rw [if_pos h2]
      simp [h1.1, h1.2, h2]
    · rw [if_neg h2]
      simp [h2]
  · rw [if_neg h1]
    constructor
    · intro h
      exfalso
      by_cases h3 : st.update_count = w.last_count
      · rw [if_pos h3] at h
        cases hL : st.last_receive_time with
        | none =>
          simp only [hL] at h
          simp at h
        | some lrt =>
          simp only [hL] at h
          by_cases h4 : now - lrt > 3
          · rw [if_pos h4] at h
            by_cases h5 : now - w.last_warning_time > 5
            · rw [if_pos h5] at h
              simp at h
            · rw [if_neg h5] at h
              simp at h
          · rw [if_neg h4] at h
            simp at h
      · rw [if_neg h3] at h
        simp at h
    · intro hcond
      exact absurd ⟨hcond.1, hcond.2.1⟩ h1

/-- C2 (amended): with `update_count = 0`, the "no updates" warning is
emitted iff strictly more than 2.0 s have elapsed since start *and
strictly more* than 5.0 s have passed since `last_warning_time` (the code
compares with `>`, not `≥`; `last_warning_time` starts at absolute clock
0.0), in which case `last_warning_time` is set to `now`; afterwards no
further "no updates" warning fires at any tick within 5 s of it. -/
theorem claim_C2_amended (st : ListenerStats) (w : WatchdogLocal) (now : ℚ)
    (h0 : st.update_count = 0) :
    ((monitorUpdatesTick st w now).2 = some WatchdogWarning.noUpdates ↔
      (now - st.start_time > 2 ∧ now - w.last_warning_time > 5)) ∧
    ((now - st.start_time > 2 ∧ now - w.last_warning_time > 5) →
      (monitorUpdatesTick st w now).1.last_warning_time = now) ∧
    (∀ now' : ℚ, now' - now ≤ 5 →
      (monitorUpdatesTick st { w with last_warning_time := now } now').2
        ≠ some WatchdogWarning.noUpdates) := by
  refine ⟨?_, ?_, ?_⟩
  · rw [monitorTick_noUpdates_iff]
    simp [h0]
  · intro hcond
    unfold monitorUpdatesTick
    rw [if_pos ⟨h0, hcond.1⟩, if_pos hcond.2]
  · intro now' hle
    rw [Ne, monitorTick_noUpdates_iff]
    rintro ⟨-, -, hgt⟩
    exact absurd hgt (not_lt.2 hle)

/-- C2 counterexample: (a) at a tick exactly 5.0 s after the last warning
(`update_count = 0`, elapsed > 2 s) the spec's "at least 5.0 s" condition
holds yet the code emits nothing; (b) with `start_time = 0` on the
monotonic clock, a tick at 2.5 s (update_count still 0, 2.5 s > 2.1 s
elapsed) emits nothing either, because `now - last_warning_time = 2.5` is
not above 5 — so the "warning within the next tick after 2.1 s" scenario
fails as stated. -/
theorem claim_C2_counterexample :
    ((monitorUpdatesTick ⟨0, none, none, none, 0⟩ ⟨0, 3⟩ 8).2 = none ∧
      specNoUpdatesCondition ⟨0, none, none, none, 0⟩ ⟨0, 3⟩ 8) ∧
    ((monitorUpdatesTick ⟨0, none, none, none, 0⟩ initWatchdog (5/2)).2 = none ∧
      (5/2 : ℚ) - 0 > 21/10) := by
  refine ⟨⟨?_, ?_⟩, ?_, ?_⟩
  · norm_num [monitorUpdatesTick]
  · refine ⟨rfl, by norm_num, by norm_num⟩
  · norm_num [monitorUpdatesTick, initWatchdog]
  · norm_num

/-- Closed instance of `claim_C2_amended` at
`st = ⟨0, none, none, none, 0⟩`, `w = ⟨0, 0⟩`, `now = 8`. -/
theorem claim_C2_witness :
    ((monitorUpdatesTick ⟨0, none, none, none, 0⟩ ⟨0, 0⟩ 8).2
        = some WatchdogWarning.noUpdates ↔
      ((8 : ℚ) - 0 > 2 ∧ (8 : ℚ) - 0 > 5)) ∧
    (((8 : ℚ) - 0 > 2 ∧ (8 : ℚ) - 0 > 5) →
      (monitorUpdatesTick ⟨0, none, none, none, 0⟩ ⟨0, 0⟩ 8).1.last_warning_time = 8) ∧
    (∀ now' : ℚ, now' - 8 ≤ 5 →
      (monitorUpdatesTick ⟨0, none, none, none, 0⟩ ⟨0, 8⟩ now').2
        ≠ some WatchdogWarning.noUpdates) :=
  claim_C2_amended ⟨0, none, none, none, 0⟩ ⟨0, 0⟩ 8 rfl

/-- C6 (amended): at a tick with nonzero `update_count`: if the count has
not advanced, a last receive time exists, more than 3.0 s have passed
since it, and *strictly more* than 5.0 s have passed since the last
warning (the code compares with `>`, not `≥`), then the "stalled" warning
is emitted and `last_warning_time` is set to `now`; if the count advanced,
no warning is emitted and the new count becomes the baseline. -/
theorem claim_C6_amended (st : ListenerStats) (w : WatchdogLocal) (now : ℚ)
    (h0 : st.update_count ≠ 0) :
    (∀ lrt : ℚ, st.update_count = w.last_count → st.last_receive_time = some lrt →
      now - lrt > 3 → now - w.last_warning_time > 5 →
      (monitorUpdatesTick st w now).2 = some WatchdogWarning.stalled ∧
      (monitorUpdatesTick st w now).1.last_warning_time = now) ∧
    (st.update_count ≠ w.last_count →
      (monitorUpdatesTick st w now).2 = none ∧
      (monitorUpdatesTick st w now).1.last_count = st.update_count) := by
  have hA : ¬ (st.update_count = 0 ∧ now - st.start_time > 2) := fun hand => h0 hand.1
  constructor
  · intro lrt hc hlrt h3 h5
    unfold monitorUpdatesTick
    rw [if_neg hA, if_pos hc]
    simp only [hlrt]
    rw [if_pos h3, if_pos h5]
    exact ⟨rfl, rfl⟩
  · intro hne
    unfold monitorUpdatesTick
    rw [if_neg hA, if_neg hne]
    exact ⟨rfl, rfl⟩

/-- C6 counterexample: `update_count = 5 = last_count`, last receive 5 s
ago (> 3), and exactly 5.0 s since the last warning: the spec's "at least
5.0 s" condition holds, yet the code emits no warning. -/
theorem claim_C6_counterexample :
    (monitorUpdatesTick ⟨5, some 1, none, none, 0⟩ ⟨5, 1⟩ 6).2 = none ∧
    specStalledCondition ⟨5, some 1, none, none, 0⟩ ⟨5, 1⟩ 6 := by
  constructor
  · norm_num [monitorUpdatesTick]
  · exact ⟨rfl, ⟨1, rfl, by norm_num⟩, by norm_num⟩

/-- Closed instance of `claim_C6_amended`: a stalled warning at
`st = ⟨5, some 1, …⟩`, `w = ⟨5, 0⟩`, `now = 6`, and the baseline update
when the count advanced (`w = ⟨3, 0⟩`). -/
theorem claim_C6_witness :
    ((monitorUpdatesTick ⟨5, some 1, none, none, 0⟩ ⟨5, 0⟩ 6).2
        = some WatchdogWarning.stalled ∧
      (monitorUpdatesTick ⟨5, some 1, none, none, 0⟩ ⟨5, 0⟩ 6).1.last_warning_time = 6) ∧
    ((monitorUpdatesTick ⟨5, some 1, none, none, 0⟩ ⟨3, 0⟩ 6).2 = none ∧
      (monitorUpdatesTick ⟨5, some 1, none, none, 0⟩ ⟨3, 0⟩ 6).1.last_count = 5) :=
  ⟨(claim_C6_amended ⟨5, some 1, none, none, 0⟩ ⟨5, 0⟩ 6 (by decide)).1 1 rfl rfl
      (by norm_num) (by norm_num),
   (claim_C6_amended ⟨5, some 1, none, none, 0⟩ ⟨3, 0⟩ 6 (by decide)).2 (by decide)⟩

/-! ### Claim C8 (exponential smoothing) -/

/-- One handler invocation with a previous receive time updates
`_avg_period` to `smoothedUpdate` of the old value at `dt = now − prev`
and stamps `_last_receive_time := now`. -/
theorem handlerStep_avg (s : ListenerStats) (prev : ℚ) (now : ℚ) (u : UpdatePayload)
    (h1 : s.last_receive_time = some prev) :
    (s.handlerStep now u).1.avg_period = some (smoothedUpdate s.avg_period (now - prev)) ∧
    (s.handlerStep now u).1.last_receive_time = some now := by
  unfold ListenerStats.handlerStep
  simp only [h1]
  constructor <;> trivial

/-- The distance to 1 contracts by the factor 9/10 under one smoothing
step with sample `dt = 1`. -/
theorem smoothedUpdate_contracts (a : ℚ) :
    |smoothedUpdate (some a) 1 - 1| = (9/10) * |a - 1| := by
  have h : smoothedUpdate (some a) 1 - 1 = (9/10) * (a - 1) := by
    unfold smoothedUpdate
    ring
  rw [h, abs_mul, abs_of_nonneg (by norm_num : (0:ℚ) ≤ 9/10)]

/-- C8: for every handler invocation after the first (a previous receive
time exists), `_avg_period` becomes the first observed `dt` when
previously absent and `0.9·prior + 0.1·dt` otherwise; and for the dt
sequence `[1, 1, 1]` the smoothed period approaches 1.0 monotonically
from its initial value (distance to 1 contracts by 9/10 each step). -/
theorem claim_C8 :
    (∀ (s : ListenerStats) (now : ℚ) (u : UpdatePayload) (prev : ℚ),
      s.last_receive_time = some prev →
      (s.handlerStep now u).1.avg_period
          = some (smoothedUpdate s.avg_period (now - prev)) ∧
      smoothedUpdate none (now - prev) = now - prev ∧
      (∀ a : ℚ, smoothedUpdate (some a) (now - prev)
          = (9/10) * a + (1/10) * (now - prev))) ∧
    (∀ (s : ListenerStats) (t0 a0 : ℚ) (u1 u2 u3 : UpdatePayload),
      s.last_receive_time = some t0 → s.avg_period = some a0 →
      ∃ a1 a2 a3 : ℚ,
        (s.handlerStep (t0+1) u1).1.avg_period = some a1 ∧
        ((s.handlerStep (t0+1) u1).1.handlerStep (t0+2) u2).1.avg_period = some a2 ∧
        (((s.handlerStep (t0+1) u1).1.handlerStep (t0+2) u2).1.handlerStep
            (t0+3) u3).1.avg_period = some a3 ∧
        |a1 - 1| = (9/10) * |a0 - 1| ∧ |a2 - 1| = (9/10) * |a1 - 1| ∧
        |a3 - 1| = (9/10) * |a2 - 1| ∧
        |a1 - 1| ≤ |a0 - 1| ∧ |a2 - 1| ≤ |a1 - 1| ∧ |a3 - 1| ≤ |a2 - 1|) := by
  constructor
  · intro s now u prev h1
    exact ⟨(handlerStep_avg s prev now u h1).1, rfl, fun a => rfl⟩
  · intro s t0 a0 u1 u2 u3 hlrt havg
    obtain ⟨h1a, h1r⟩ := handlerStep_avg s t0 (t0+1) u1 hlrt
    rw [havg, show t0 + 1 - t0 = (1:ℚ) by ring] at h1a
    obtain ⟨h2a, h2r⟩ := handlerStep_avg _ (t0+1) (t0+2) u2 h1r
    rw [h1a, show t0 + 2 - (t0 + 1) = (1:ℚ) by ring] at h2a
    obtain ⟨h3a, -⟩ := handlerStep_avg _ (t0+2) (t0+3) u3 h2r
    rw [h2a, show t0 + 3 - (t0 + 2) = (1:ℚ) by ring] at h3a
    refine ⟨smoothedUpdate (some a0) 1,
      smoothedUpdate (some (smoothedUpdate (some a0) 1)) 1,
      smoothedUpdate (some (smoothedUpdate (some (smoothedUpdate (some a0) 1)) 1)) 1,
      h1a, h2a, h3a, smoothedUpdate_contracts a0, smoothedUpdate_contracts _,
      smoothedUpdate_contracts _, ?_, ?_, ?_⟩
    · rw [smoothedUpdate_contracts]
      have h := abs_nonneg (a0 - 1)
      linarith
    · rw [smoothedUpdate_contracts]
      have h := abs_nonneg (smoothedUpdate (some a0) 1 - 1)
      linarith
    · rw [smoothedUpdate_contracts]
      have h := abs_nonneg (smoothedUpdate (some (smoothedUpdate (some a0) 1)) 1 - 1)
      linarith

/-- Closed instance of `claim_C8` at `last_receive_time = 2`,
`avg_period = 1/2`, and receive times 3, 4, 5 (dt sequence [1, 1, 1]). -/
theorem claim_C8_witness :
    (((⟨0, some 2, some (1/2), none, 0⟩ : ListenerStats).handlerStep 3
          emptyPayload).1.avg_period
        = some (smoothedUpdate
            (⟨0, some 2, some (1/2), none, 0⟩ : ListenerStats).avg_period ((3:ℚ) - 2)) ∧
      smoothedUpdate none ((3:ℚ) - 2) = (3:ℚ) - 2 ∧
      (∀ a : ℚ, smoothedUpdate (some a) ((3:ℚ) - 2)
          = (9/10) * a + (1/10) * ((3:ℚ) - 2))) ∧
    (∃ a1 a2 a3 : ℚ,
      ((⟨0, some 2, some (1/2), none, 0⟩ : ListenerStats).handlerStep ((2:ℚ)+1)
          emptyPayload).1.avg_period = some a1 ∧
      (((⟨0, some 2, some (1/2), none, 0⟩ : ListenerStats).handlerStep ((2:ℚ)+1)
          emptyPayload).1.handlerStep ((2:ℚ)+2) emptyPayload).1.avg_period = some a2 ∧
      ((((⟨0, some 2, some (1/2), none, 0⟩ : ListenerStats).handlerStep ((2:ℚ)+1)
          emptyPayload).1.handlerStep ((2:ℚ)+2) emptyPayload).1.handlerStep ((2:ℚ)+3)
          emptyPayload).1.avg_period = some a3 ∧
      |a1 - 1| = (9/10) * |(1/2 : ℚ) - 1| ∧ |a2 - 1| = (9/10) * |a1 - 1| ∧
      |a3 - 1| = (9/10) * |a2 - 1| ∧
      |a1 - 1| ≤ |(1/2 : ℚ) - 1| ∧ |a2 - 1| ≤ |a1 - 1| ∧ |a3 - 1| ≤ |a2 - 1|) :=
  ⟨claim_C8.1 ⟨0, some 2, some (1/2), none, 0⟩ 3 emptyPayload 2 rfl,
   claim_C8.2 ⟨0, some 2, some (1/2), none, 0⟩ 2 (1/2)
     emptyPayload emptyPayload emptyPayload rfl rfl⟩

/-! ### Claim C7 (formatting never raises) -/

/-- A status string is produced for every input (it begins with `#` and is
nonempty even after the 512-character cut). -/
theorem formatStatus_length_pos (c : ℕ) (a : Option ℚ) (u : UpdatePayload)
    (d : Option ℚ) (up : ℚ) : 0 < (formatStatus c a u d up).length := by
  unfold formatStatus
  simp only [List.length_take, List.length_map, List.length_append]
  have h1 : (pyStr "#").length = 1 := rfl
  omega

/-- C7: formatting never aborts: every field whose `float(...)` coercion
fails renders as the fixed-width placeholder `"   n/a "` (TypeError or
ValueError) or `"   err "` (any other exception) — both 7 characters —
angles likewise render `"  n/a"`/`"  err"`, and a complete (nonempty)
status string is returned for every payload. -/
theorem claim_C7 (update_count : ℕ) (avg_period : Option ℚ) (u : UpdatePayload)
    (dt : Option ℚ) (uptime : ℚ) (v : Option PyNum)
    (hv : ∀ x : ℚ, coerceFloat v ≠ Except.ok x) :
    (safe_float v = pyStr "   n/a " ∨ safe_float v = pyStr "   err ") ∧
    (safe_float v).length = 7 ∧
    (∀ n : PyNum, (∀ x : ℚ, coerceFloat (some n) ≠ Except.ok x) →
      angleEntry (some n) = some (pyStr "  n/a") ∨
      angleEntry (some n) = some (pyStr "  err")) ∧
    0 < (formatStatus update_count avg_period u dt uptime).length := by
  refine ⟨?_, ?_, ?_, formatStatus_length_pos _ _ _ _ _⟩
  · cases v with
    | none => exact Or.inl rfl
    | some n =>
      cases n with
      | num x => exact absurd rfl (hv x)
      | raises e =>
        cases e with
        | typeError => exact Or.inl rfl
        | valueError => exact Or.inl rfl
        | other => exact Or.inr rfl
  · cases v with
    | none => rfl
    | some n =>
      cases n with
      | num x => exact absurd rfl (hv x)
      | raises e => cases e <;> rfl
  · intro n hn
    cases n with
    | num x => exact absurd rfl (hn x)
    | raises e =>
      cases e with
      | typeError => exact Or.inl rfl
      | valueError => exact Or.inl rfl
      | other => exact Or.inr rfl

/-- Closed instance of `claim_C7` at a `ValueError`-raising field and the
all-absent payload. -/
theorem claim_C7_witness :
    (safe_float (some (PyNum.raises PyErr.valueError)) = pyStr "   n/a " ∨
      safe_float (some (PyNum.raises PyErr.valueError)) = pyStr "   err ") ∧
    (safe_float (some (PyNum.raises PyErr.valueError))).length = 7 ∧
    (∀ n : PyNum, (∀ x : ℚ, coerceFloat (some n) ≠ Except.ok x) →
      angleEntry (some n) = some (pyStr "  n/a") ∨
      angleEntry (some n) = some (pyStr "  err")) ∧
    0 < (formatStatus 3 none emptyPayload none 0).length :=
  claim_C7 3 none emptyPayload none 0 (some (PyNum.raises PyErr.valueError))
    (fun _ h => Except.noConfusion h)

/-! ### Claim C4 (status-aware log emission) -/

/-- C4: for every outcome of the underlying stream emission,
`StatusAwareStreamHandler.emit` calls `interrupt` before the emission and
`restore` after it; `restore` runs even when the emission raises, and the
exception then propagates (after the restore) rather than being lost. -/
theorem claim_C4 (r : Except PyErr Unit) :
    (StatusAwareStreamHandler.emit r).trace
        = [EmitEvent.interrupted, EmitEvent.streamEmit, EmitEvent.restored] ∧
    (StatusAwareStreamHandler.emit r).result = r := by
  cases r with
  | ok u => cases u; exact ⟨rfl, rfl⟩
  | error e => exact ⟨rfl, rfl⟩
